import Mathlib

/-!
Verification of the SWARM-SIGNAL-OS hub (src/main.py): a state-distribution
hub holding a canonical junction table, a broadcast registry of dashboard
sessions, a producer websocket loop, a dashboard websocket handler and a
manual-override REST handler. The Python code is shallowly embedded below;
dictionaries become insertion-ordered association lists, the connected-client
set becomes a duplicate-free list, and exceptions become Except values.
-/

namespace SwarmSignal

/-- JSON values, the payloads flowing through the hub. Numbers are modelled
as integers, which covers every numeric field the hub touches. -/
inductive Json where
  | null : Json
  | bool : Bool → Json
  | num : Int → Json
  | str : String → Json
  | arr : List Json → Json
  | obj : List (String × Json) → Json

/-- Hashable scalar JSON values: the only values Python accepts as dict
keys. A list or dict used as a key raises TypeError. -/
inductive Key where
  | null : Key
  | bool : Bool → Key
  | num : Int → Key
  | str : String → Key
  deriving DecidableEq, Repr

/-- The hashable view of a JSON value, none when it is unhashable. -/
def Json.asKey : Json → Option Key
  | .null => some .null
  | .bool b => some (.bool b)
  | .num n => some (.num n)
  | .str s => some (.str s)
  | .arr _ => none
  | .obj _ => none

/-- A key rendered back as the JSON value it came from. -/
def Key.toJson : Key → Json
  | .null => .null
  | .bool b => .bool b
  | .num n => .num n
  | .str s => .str s

/-- First-match lookup in an association list, the Python dict read
d[k] / d.get(k). Stored dictionaries keep keys unique, so the first match
is the only match. -/
def dictGet {κ α : Type} [DecidableEq κ] : List (κ × α) → κ → Option α
  | [], _ => none
  | (k0, v0) :: rest, k => if k = k0 then some v0 else dictGet rest k

/-- Python dict assignment d[k] = v: replace the value at the first
occurrence of k in place, or append a fresh binding at the end. -/
def dictSet {κ α : Type} [DecidableEq κ] : List (κ × α) → κ → α → List (κ × α)
  | [], k, v => [(k, v)]
  | (k0, v0) :: rest, k, v =>
    if k = k0 then (k, v) :: rest else (k0, v0) :: dictSet rest k v

theorem dictGet_dictSet {κ α : Type} [DecidableEq κ]
    (d : List (κ × α)) (k k' : κ) (v : α) :
    dictGet (dictSet d k v) k' = if k' = k then some v else dictGet d k' := by
  induction d with
  | nil => simp [dictSet, dictGet]
  | cons kv rest ih =>
    obtain ⟨k0, v0⟩ := kv
    by_cases h0 : k = k0
    · subst h0
      by_cases h : k' = k <;> simp [dictSet, dictGet, h]
    · by_cases h : k' = k0
      · subst h
        have hne : ¬k' = k := fun hh => h0 hh.symm
        simp [dictSet, dictGet, h0, hne]
      · simp [dictSet, dictGet, h0, h, ih]

theorem dictSet_keys {κ α : Type} [DecidableEq κ]
    (d : List (κ × α)) (k : κ) (v : α) :
    (dictSet d k v).map Prod.fst = d.map Prod.fst ∨
    (dictSet d k v).map Prod.fst = d.map Prod.fst ++ [k] := by
  induction d with
  | nil => simp [dictSet]
  | cons kv rest ih =>
    obtain ⟨k0, v0⟩ := kv
    by_cases h0 : k = k0
    · subst h0
      simp [dictSet]
    · rcases ih with ih | ih <;> simp [dictSet, h0, ih]

theorem dictSet_nodupKeys {κ α : Type} [DecidableEq κ]
    (d : List (κ × α)) (k : κ) (v : α) (hd : (d.map Prod.fst).Nodup) :
    ((dictSet d k v).map Prod.fst).Nodup := by
  induction d with
  | nil => simp [dictSet]
  | cons kv rest ih =>
    obtain ⟨k0, v0⟩ := kv
    simp only [List.map_cons, List.nodup_cons] at hd
    by_cases h0 : k = k0
    · subst h0
      simpa [dictSet] using hd
    · have hne : ¬k0 = k := fun hh => h0 hh.symm
      have := ih hd.2
      rcases dictSet_keys rest k v with hk | hk <;>
        simp_all [dictSet, h0, List.nodup_cons]

/-- Read a field of a JSON object, Python value.get(key): none when the
field is absent or the value is not an object. -/
def Json.getField : Json → String → Option Json
  | .obj fields, k => dictGet fields k
  | _, _ => none

/-- Write a field of a JSON object, Python value[key] = v. A non-object
value raises TypeError, hence the Except. -/
def Json.setFieldE : Json → String → Json → Except String Json
  | .obj fields, k, v => .ok (.obj (dictSet fields k v))
  | _, _, _ => .error "TypeError"

theorem getField_setFieldE (j j' : Json) (k k' : String) (v : Json)
    (h : j.setFieldE k v = .ok j') :
    j'.getField k' = if k' = k then some v else j.getField k' := by
  cases j with
  | obj fields =>
    simp only [Json.setFieldE, Except.ok.injEq] at h
    subst h
    simp [Json.getField, dictGet_dictSet]
  | null => simp [Json.setFieldE] at h
  | bool b => simp [Json.setFieldE] at h
  | num n => simp [Json.setFieldE] at h
  | str s => simp [Json.setFieldE] at h
  | arr xs => simp [Json.setFieldE] at h

/-- The canonical in-memory state, the junctions dict of main.py: entity
key to latest stored record. -/
def Table : Type := List (Key × Json)

/-- StateTable snapshotAll, the expression list of junctions.values()
in ws_dashboard. -/
def snapshotAll (t : Table) : List Json := t.map Prod.snd

/-- One run of the broadcast helper: who was attempted, who received the
message, and the registry left behind. -/
structure BroadcastRun where
  attempted : List Nat
  delivered : List Nat
  registry : List Nat
  deriving DecidableEq, Repr

/-- The broadcast helper of main.py. Clients are abstract session handles;
the fal predicate says whose send raises. The loop attempts every member,
collects the failing ones in dead order, and only then removes them from
the registry, mirroring the two-phase collect-dead-then-remove sweep. -/
def broadcastRun (clients : List Nat) (fal : Nat → Bool) : BroadcastRun :=
  let dead := clients.filter fal
  { attempted := clients
    delivered := clients.filter (fun c => !(fal c))
    registry := dead.foldl (fun s c => s.erase c) clients }

/-- Python set.add on the registry list. -/
def setAdd (clients : List Nat) (c : Nat) : List Nat :=
  if c ∈ clients then clients else clients ++ [c]

/-- Python set.remove on the registry list: raises KeyError when the
element is absent. -/
def setRemove (clients : List Nat) (c : Nat) : Except String (List Nat) :=
  if c ∈ clients then .ok (clients.erase c) else .error "KeyError"

/-- Whether msg.get of the type field compares equal to the string
junction_update. -/
def isUpdateType (msg : Json) : Bool :=
  match msg.getField "type" with
  | some (.str t) => t = "junction_update"
  | _ => false

/-- One iteration of the ws_publish receive loop on an already-parsed
message: json.loads output is inspected for the type discriminator; a
junction_update is stored under its junction_id and re-broadcast verbatim.
Errors model the uncaught Python exceptions that terminate the session:
AttributeError when the message is not a dict, KeyError when junction_id
is missing, TypeError when the id is unhashable. -/
def handlePublishMsg (st : Table) (msg : Json) :
    Except String (Table × Option Json) :=
  match msg with
  | .obj _ =>
    if isUpdateType msg then
      match msg.getField "junction_id" with
      | none => .error "KeyError"
      | some jv =>
        match jv.asKey with
        | none => .error "TypeError"
        | some k => .ok (dictSet st k msg, some msg)
    else .ok (st, none)
  | _ => .error "AttributeError"

/-- The ws_publish session run over a list of inbound messages: the final
table, the broadcasts issued, and whether the session died on an uncaught
exception. Processing stops at the first failing message because the
except clause only catches WebSocketDisconnect. -/
def runPublish : Table → List Json → Table × List Json × Bool
  | st, [] => (st, [], false)
  | st, m :: ms =>
    match handlePublishMsg st m with
    | .error _ => (st, [], true)
    | .ok (st2, b) =>
      let out := runPublish st2 ms
      (out.1, b.toList ++ out.2.1, out.2.2)

/-- Python int() on a JSON value: integers pass through, booleans coerce,
numeric strings parse, everything else raises. -/
def pyInt : Json → Except String Int
  | .num n => .ok n
  | .bool b => .ok (if b then 1 else 0)
  | .str s =>
    match s.trim.toInt? with
    | some n => .ok n
    | none => .error "ValueError"
  | _ => .error "TypeError"

/-- Everything the override endpoint produces: the mutated table, the
override event, the broadcast calls made, and the JSON response returned
to the caller. -/
structure OverrideOutcome where
  table : Table
  event : Json
  broadcasts : List Json
  response : Json

/-- The ensure-junction-exists block of the override handler: create a
placeholder record holding just the id when the key is absent. -/
def ensureTable (t : Table) (jid : String) : Table :=
  if (dictGet t (Key.str jid)).isSome then t
  else dictSet t (Key.str jid) (Json.obj [("junction_id", Json.str jid)])

/-- The override_junction REST handler of main.py, with the two
datetime.now calls abstracted as the strings ts1 (stored in the override
descriptor) and ts2 (stamped on the event). The payload is the parsed
request body, a dict guaranteed by FastAPI. An Except error models an
uncaught exception, which surfaces as a 500 without touching the table. -/
def override_junction (junctions : Table) (jid : String)
    (payload : List (String × Json)) (ts1 ts2 : String) :
    Except String OverrideOutcome :=
  let lane := (dictGet payload "lane").getD Json.null
  match pyInt ((dictGet payload "duration").getD (Json.num 20)) with
  | .error e => .error e
  | .ok duration =>
    let operator := (dictGet payload "operator").getD (Json.str "manual")
    let reason := (dictGet payload "reason").getD (Json.str "Manual override")
    let key := Key.str jid
    let t0 := ensureTable junctions jid
    let r0 := (dictGet t0 key).getD Json.null
    match r0.setFieldE "current_green" lane with
    | .error e => .error e
    | .ok r1 =>
      match r1.setFieldE "phase_remaining" (Json.num duration) with
      | .error e => .error e
      | .ok r2 =>
        match r2.setFieldE "override" (Json.obj
            [("operator", operator), ("reason", reason),
             ("time", Json.str ts1)]) with
        | .error e => .error e
        | .ok r3 =>
          let t1 := dictSet t0 key r3
          let event := Json.obj
            [("type", Json.str "override"), ("junction_id", Json.str jid),
             ("payload", Json.obj payload), ("ts", Json.str ts2)]
          let response := Json.obj
            [("status", Json.str "ok"), ("event", event),
             ("applied_state", r3)]
          .ok { table := t1, event := event, broadcasts := [event],
                response := response }

/-- The snapshot message ws_dashboard builds from the table on connect. -/
def snapshotMsg (t : Table) : Json :=
  Json.obj [("type", Json.str "snapshot"), ("junctions", Json.arr (snapshotAll t))]

/-- Observable actions of the ws_dashboard handler, in program order. -/
inductive DashEvent where
  | register : Nat → DashEvent
  | send : Json → DashEvent
  | recv : DashEvent

/-- Whether a dashboard action is a send initiated by the handler. -/
def DashEvent.isSend : DashEvent → Bool
  | .send _ => true
  | _ => false

/-- The ws_dashboard handler: add the socket to the registry, send one
snapshot built from the table, then loop receiving and discarding n
inbound units. Returns the new registry and the action trace. -/
def ws_dashboard_trace (clients : List Nat) (t : Table) (ws : Nat) (n : Nat) :
    List Nat × List DashEvent :=
  (setAdd clients ws,
   DashEvent.register ws :: DashEvent.send (snapshotMsg t) ::
     List.replicate n DashEvent.recv)

theorem foldl_erase_eq_filter (dead : List Nat) :
    ∀ s : List Nat, s.Nodup →
      dead.foldl (fun s c => s.erase c) s
        = s.filter (fun x => decide (x ∉ dead)) := by
  induction dead with
  | nil =>
    intro s _
    simp
  | cons d ds ih =>
    intro s hs
    have h1 : (d :: ds).foldl (fun s c => s.erase c) s
        = ds.foldl (fun s c => s.erase c) (s.erase d) := rfl
    rw [h1, ih _ (hs.erase d), hs.erase_eq_filter d, List.filter_filter]
    refine List.filter_congr ?_
    intro x _
    simp only [List.mem_cons, not_or]
    by_cases h1 : x = d <;> by_cases h2 : x ∈ ds <;> simp [h1, h2]

theorem broadcastRun_registry (clients : List Nat) (fal : Nat → Bool)
    (hnd : clients.Nodup) :
    (broadcastRun clients fal).registry
      = clients.filter (fun c => !(fal c)) := by
  unfold broadcastRun
  simp only
  rw [foldl_erase_eq_filter _ _ hnd]
  refine List.filter_congr ?_
  intro x hx
  by_cases h : fal x <;> simp [List.mem_filter, hx, h]

/-- C1: a broadcast over a registry of distinct sessions attempts delivery
to every observer registered at the start of the call, delivers the
message exactly to the observers whose send succeeds, removes each failed
observer from the registry exactly once after the delivery sweep (failed
observers end with registry count zero, healthy ones keep count one), a
subsequent broadcast does not attempt delivery to a removed observer, and
a broadcast over an empty registry is a no-op. -/
theorem C1_broadcast_two_phase (clients : List Nat) (fal : Nat → Bool)
    (hnd : clients.Nodup) :
    (broadcastRun clients fal).attempted = clients ∧
    (∀ c, c ∈ (broadcastRun clients fal).delivered ↔
      c ∈ clients ∧ fal c = false) ∧
    (∀ c ∈ clients, fal c = true →
      (broadcastRun clients fal).registry.count c = 0) ∧
    (∀ c ∈ clients, fal c = false →
      (broadcastRun clients fal).registry.count c = 1) ∧
    (∀ c, fal c = true →
      c ∉ (broadcastRun (broadcastRun clients fal).registry fal).attempted) ∧
    (broadcastRun [] fal).delivered = [] ∧
    (broadcastRun [] fal).registry = [] := by
  have hreg := broadcastRun_registry clients fal hnd
  refine ⟨rfl, ?_, ?_, ?_, ?_, rfl, rfl⟩
  · intro c
    simp [broadcastRun, List.mem_filter]
  · intro c hc hf
    rw [hreg, List.count_eq_zero]
    intro hmem
    rcases List.mem_filter.1 hmem with ⟨_, hb⟩
    simp [hf] at hb
  · intro c hc hf
    rw [hreg]
    exact List.count_eq_one_of_mem (hnd.filter _)
      (List.mem_filter.2 ⟨hc, by simp [hf]⟩)
  · intro c hf
    show c ∉ (broadcastRun clients fal).registry
    rw [hreg]
    intro hmem
    rcases List.mem_filter.1 hmem with ⟨_, hb⟩
    simp [hf] at hb

theorem C1_broadcast_two_phase_witness :
    (broadcastRun [1, 2, 3] (fun c => c == 2)).attempted = [1, 2, 3] ∧
    (broadcastRun [1, 2, 3] (fun c => c == 2)).registry.count 2 = 0 ∧
    (broadcastRun [1, 2, 3] (fun c => c == 2)).registry.count 1 = 1 := by
  have h := C1_broadcast_two_phase [1, 2, 3] (fun c => c == 2) (by decide)
  exact ⟨h.1, h.2.2.1 2 (by decide) rfl, h.2.2.2.1 1 (by decide) rfl⟩

/-- The storage key a junction_update is filed under: its junction_id
field viewed as a dict key. -/
def updateKey (m : Json) : Option Key :=
  (m.getField "junction_id").bind Json.asKey

/-- A well-formed junction_update: a JSON object with the right type tag
and a hashable junction_id. -/
def isValidUpdate (m : Json) : Bool :=
  match m with
  | .obj _ => isUpdateType m && (updateKey m).isSome
  | _ => false

/-- The last message of a list that targets the key k, the specification
side of last-write-wins. -/
def lastFor (k : Key) : List Json → Option Json
  | [] => none
  | m :: ms =>
    (lastFor k ms).or (if updateKey m = some k then some m else none)

theorem handlePublishMsg_valid (st : Table) (m : Json) (k : Key)
    (hv : isValidUpdate m = true) (hk : updateKey m = some k) :
    handlePublishMsg st m = .ok (dictSet st k m, some m) := by
  cases m with
  | obj fs =>
    simp only [isValidUpdate, Bool.and_eq_true] at hv
    rcases Option.isSome_iff_exists.1 hv.2 with ⟨k0, hk0⟩
    simp only [updateKey] at hk0
    rcases Option.bind_eq_some.1 hk0 with ⟨jv, hjv, hjk⟩
    simp only [updateKey, hjv, Option.some_bind] at hk
    simp [handlePublishMsg, hv.1, hjv, hk]
  | null => simp [isValidUpdate] at hv
  | bool b => simp [isValidUpdate] at hv
  | num n => simp [isValidUpdate] at hv
  | str s => simp [isValidUpdate] at hv
  | arr xs => simp [isValidUpdate] at hv

/-- C4: replaying any sequence of well-formed junction_update messages
through the producer path ends with each key bound to exactly the last
message received for that key, stored verbatim as a full replacement; the
table keeps at most one record per key and the session never crashes. -/
theorem C4_last_write_wins (st : Table) (msgs : List Json) (k : Key)
    (hv : ∀ m ∈ msgs, isValidUpdate m = true)
    (hnd : (st.map Prod.fst).Nodup) :
    dictGet (runPublish st msgs).1 k = (lastFor k msgs).or (dictGet st k) ∧
    ((runPublish st msgs).1.map Prod.fst).Nodup ∧
    (runPublish st msgs).2.2 = false := by
  induction msgs generalizing st with
  | nil => exact ⟨by simp [runPublish, lastFor, Option.or], hnd, rfl⟩
  | cons m ms ih =>
    have hm := hv m (by simp)
    have hks : (updateKey m).isSome := by
      cases m <;> simp_all [isValidUpdate]
    rcases Option.isSome_iff_exists.1 hks with ⟨km, hkm⟩
    have hstep := handlePublishMsg_valid st m km hm hkm
    have hrun : runPublish st (m :: ms)
        = ((runPublish (dictSet st km m) ms).1,
           m :: (runPublish (dictSet st km m) ms).2.1,
           (runPublish (dictSet st km m) ms).2.2) := by
      simp [runPublish, hstep]
    rcases ih (dictSet st km m) (fun x hx => hv x (by simp [hx]))
        (dictSet_nodupKeys st km m hnd) with ⟨ih1, ih2, ih3⟩
    refine ⟨?_, by rw [hrun]; exact ih2, by rw [hrun]; exact ih3⟩
    rw [hrun]
    simp only
    rw [ih1, dictGet_dictSet]
    show _ = ((lastFor k ms).or
      (if updateKey m = some k then some m else none)).or (dictGet st k)
    cases hl : lastFor k ms with
    | some j => simp [Option.or]
    | none =>
      by_cases hk : k = km
      · subst hk
        simp [Option.or, hkm]
      · have : ¬updateKey m = some k := by
          rw [hkm]
          exact fun hh => hk (Option.some.inj hh).symm
        simp [Option.or, this, hk]

theorem C4_last_write_wins_witness :
    dictGet (runPublish []
      [Json.obj [("type", Json.str "junction_update"),
         ("junction_id", Json.str "A"), ("n", Json.num 1)],
       Json.obj [("type", Json.str "junction_update"),
         ("junction_id", Json.str "B"), ("n", Json.num 2)],
       Json.obj [("type", Json.str "junction_update"),
         ("junction_id", Json.str "A"), ("n", Json.num 3)]]).1 (Key.str "A")
    = some (Json.obj [("type", Json.str "junction_update"),
        ("junction_id", Json.str "A"), ("n", Json.num 3)]) := by
  have h := C4_last_write_wins []
    [Json.obj [("type", Json.str "junction_update"),
       ("junction_id", Json.str "A"), ("n", Json.num 1)],
     Json.obj [("type", Json.str "junction_update"),
       ("junction_id", Json.str "B"), ("n", Json.num 2)],
     Json.obj [("type", Json.str "junction_update"),
       ("junction_id", Json.str "A"), ("n", Json.num 3)]] (Key.str "A")
    (by intro m hm; fin_cases hm <;> rfl) (by simp)
  rw [h.1]
  rfl

/-- The override descriptor stamped into the record by the handler. -/
def overrideDescriptor (payload : List (String × Json)) (ts1 : String) : Json :=
  Json.obj
    [("operator", (dictGet payload "operator").getD (Json.str "manual")),
     ("reason", (dictGet payload "reason").getD (Json.str "Manual override")),
     ("time", Json.str ts1)]

/-- The override event the handler broadcasts and returns. -/
def overrideEvent (jid : String) (payload : List (String × Json))
    (ts2 : String) : Json :=
  Json.obj
    [("type", Json.str "override"), ("junction_id", Json.str jid),
     ("payload", Json.obj payload), ("ts", Json.str ts2)]

theorem override_junction_ok (t : Table) (jid : String)
    (payload : List (String × Json)) (ts1 ts2 : String) (out : OverrideOutcome)
    (hok : override_junction t jid payload ts1 ts2 = .ok out) :
    ∃ duration r1 r2 r3,
      pyInt ((dictGet payload "duration").getD (Json.num 20)) = .ok duration ∧
      ((dictGet (ensureTable t jid) (Key.str jid)).getD Json.null).setFieldE
        "current_green" ((dictGet payload "lane").getD Json.null) = .ok r1 ∧
      r1.setFieldE "phase_remaining" (Json.num duration) = .ok r2 ∧
      r2.setFieldE "override" (overrideDescriptor payload ts1) = .ok r3 ∧
      out.table = dictSet (ensureTable t jid) (Key.str jid) r3 ∧
      out.event = overrideEvent jid payload ts2 ∧
      out.broadcasts = [overrideEvent jid payload ts2] ∧
      out.response = Json.obj
        [("status", Json.str "ok"), ("event", overrideEvent jid payload ts2),
         ("applied_state", r3)] := by
  unfold override_junction at hok
  split at hok
  · simp at hok
  next duration hdur =>
    dsimp only at hok
    split at hok
    · simp at hok
    next r1 h1 =>
      split at hok
      · simp at hok
      next r2 h2 =>
        split at hok
        · simp at hok
        next r3 h3 =>
          obtain rfl := (Except.ok.inj hok).symm
          exact ⟨duration, r1, r2, r3, hdur, h1, h2, h3, rfl, rfl, rfl, rfl⟩

theorem dictSet_dictSet_same {κ α : Type} [DecidableEq κ]
    (d : List (κ × α)) (k : κ) (v w : α) :
    dictSet (dictSet d k v) k w = dictSet d k w := by
  induction d with
  | nil => simp [dictSet]
  | cons kv rest ih =>
    obtain ⟨k0, v0⟩ := kv
    by_cases h : k = k0 <;> simp [dictSet, h, ih]

/-- C5: an override on a previously unknown id with explicit lane,
duration, operator and reason creates a record carrying exactly the id,
the lane as current_green, the duration as phase_remaining and the
override descriptor with the stamped server time, and synchronously
returns the ok status, the broadcast override event holding the id, the
raw request payload and the second server timestamp, and the fully
updated record. -/
theorem C5_override_fresh (t : Table) (jid lane opr rsn : String) (d : Int)
    (ts1 ts2 : String) (habs : dictGet t (Key.str jid) = none) :
    override_junction t jid
      [("lane", Json.str lane), ("duration", Json.num d),
       ("operator", Json.str opr), ("reason", Json.str rsn)] ts1 ts2
    = Except.ok
      { table := dictSet t (Key.str jid) (Json.obj
          [("junction_id", Json.str jid), ("current_green", Json.str lane),
           ("phase_remaining", Json.num d),
           ("override", Json.obj [("operator", Json.str opr),
             ("reason", Json.str rsn), ("time", Json.str ts1)])]),
        event := overrideEvent jid
          [("lane", Json.str lane), ("duration", Json.num d),
           ("operator", Json.str opr), ("reason", Json.str rsn)] ts2,
        broadcasts := [overrideEvent jid
          [("lane", Json.str lane), ("duration", Json.num d),
           ("operator", Json.str opr), ("reason", Json.str rsn)] ts2],
        response := Json.obj
          [("status", Json.str "ok"),
           ("event", overrideEvent jid
             [("lane", Json.str lane), ("duration", Json.num d),
              ("operator", Json.str opr), ("reason", Json.str rsn)] ts2),
           ("applied_state", Json.obj
             [("junction_id", Json.str jid),
              ("current_green", Json.str lane),
              ("phase_remaining", Json.num d),
              ("override", Json.obj [("operator", Json.str opr),
                ("reason", Json.str rsn), ("time", Json.str ts1)])])] } := by
  have hens : ensureTable t jid
      = dictSet t (Key.str jid) (Json.obj [("junction_id", Json.str jid)]) := by
    simp [ensureTable, habs]
  simp [override_junction, hens, pyInt, dictGet, dictSet, Json.setFieldE,
    dictGet_dictSet, dictSet_dictSet_same, overrideEvent]

theorem C5_override_fresh_witness :
    override_junction [] "J9"
      [("lane", Json.str "east"), ("duration", Json.num 15),
       ("operator", Json.str "op1"), ("reason", Json.str "congestion")]
      "t1" "t2"
    = Except.ok
      { table := dictSet [] (Key.str "J9") (Json.obj
          [("junction_id", Json.str "J9"), ("current_green", Json.str "east"),
           ("phase_remaining", Json.num 15),
           ("override", Json.obj [("operator", Json.str "op1"),
             ("reason", Json.str "congestion"), ("time", Json.str "t1")])]),
        event := overrideEvent "J9"
          [("lane", Json.str "east"), ("duration", Json.num 15),
           ("operator", Json.str "op1"), ("reason", Json.str "congestion")] "t2",
        broadcasts := [overrideEvent "J9"
          [("lane", Json.str "east"), ("duration", Json.num 15),
           ("operator", Json.str "op1"), ("reason", Json.str "congestion")] "t2"],
        response := Json.obj
          [("status", Json.str "ok"),
           ("event", overrideEvent "J9"
             [("lane", Json.str "east"), ("duration", Json.num 15),
              ("operator", Json.str "op1"), ("reason", Json.str "congestion")] "t2"),
           ("applied_state", Json.obj
             [("junction_id", Json.str "J9"),
              ("current_green", Json.str "east"),
              ("phase_remaining", Json.num 15),
              ("override", Json.obj [("operator", Json.str "op1"),
                ("reason", Json.str "congestion"), ("time", Json.str "t1")])])] } :=
  C5_override_fresh [] "J9" "east" "op1" "congestion" 15 "t1" "t2" rfl

theorem dictGet_ensureTable_ne (t : Table) (jid : String) (k : Key)
    (hk : k ≠ Key.str jid) :
    dictGet (ensureTable t jid) k = dictGet t k := by
  unfold ensureTable
  split
  · rfl
  · rw [dictGet_dictSet, if_neg hk]

theorem dictGet_ensureTable_self (t : Table) (jid : String) :
    dictGet (ensureTable t jid) (Key.str jid)
      = some ((dictGet t (Key.str jid)).getD
          (Json.obj [("junction_id", Json.str jid)])) := by
  unfold ensureTable
  cases h : dictGet t (Key.str jid) with
  | some r => simp [h]
  | none => simp [h, dictGet_dictSet]

/-- C7: an override touches only the current_green, phase_remaining and
override fields of the targeted record: every record under another key is
unchanged, every other field of an existing targeted record keeps its
previous value, and for an absent id a placeholder holding just the id is
created before those fields are set, so the result carries the id and no
field beyond the id and the three override fields. -/
theorem C7_override_frame (t : Table) (jid : String)
    (payload : List (String × Json)) (ts1 ts2 : String) (out : OverrideOutcome)
    (hok : override_junction t jid payload ts1 ts2 = .ok out) :
    (∀ k, k ≠ Key.str jid → dictGet out.table k = dictGet t k) ∧
    (∀ r, dictGet t (Key.str jid) = some r →
      ∀ f, f ≠ "current_green" → f ≠ "phase_remaining" → f ≠ "override" →
        (dictGet out.table (Key.str jid)).bind (fun v => v.getField f)
          = r.getField f) ∧
    (dictGet t (Key.str jid) = none →
      (dictGet out.table (Key.str jid)).bind
          (fun v => v.getField "junction_id") = some (Json.str jid) ∧
      ∀ f, f ≠ "junction_id" → f ≠ "current_green" → f ≠ "phase_remaining" →
        f ≠ "override" →
        (dictGet out.table (Key.str jid)).bind (fun v => v.getField f)
          = none) := by
  obtain ⟨d, r1, r2, r3, hdur, h1, h2, h3, htab, hev, hbc, hresp⟩ :=
    override_junction_ok t jid payload ts1 ts2 out hok
  have hself : dictGet out.table (Key.str jid) = some r3 := by
    rw [htab, dictGet_dictSet, if_pos rfl]
  have hframe : ∀ f, f ≠ "current_green" → f ≠ "phase_remaining" →
      f ≠ "override" →
      r3.getField f
        = ((dictGet (ensureTable t jid) (Key.str jid)).getD
            Json.null).getField f := by
    intro f hf1 hf2 hf3
    rw [getField_setFieldE _ _ _ _ _ h3, if_neg hf3,
        getField_setFieldE _ _ _ _ _ h2, if_neg hf2,
        getField_setFieldE _ _ _ _ _ h1, if_neg hf1]
  refine ⟨?_, ?_, ?_⟩
  · intro k hk
    rw [htab, dictGet_dictSet, if_neg hk, dictGet_ensureTable_ne t jid k hk]
  · intro r hr f hf1 hf2 hf3
    rw [hself]
    show r3.getField f = r.getField f
    rw [hframe f hf1 hf2 hf3, dictGet_ensureTable_self, hr]
    rfl
  · intro hr
    constructor
    · rw [hself]
      show r3.getField "junction_id" = some (Json.str jid)
      rw [hframe "junction_id" (by decide) (by decide) (by decide),
          dictGet_ensureTable_self, hr]
      rfl
    · intro f hf0 hf1 hf2 hf3
      rw [hself]
      show r3.getField f = none
      rw [hframe f hf1 hf2 hf3, dictGet_ensureTable_self, hr]
      simp [Json.getField, dictGet, hf0]

def C7sampleTable : Table :=
  [(Key.str "J7",
    Json.obj [("junction_id", Json.str "J7"), ("name", Json.str "7th")])]

def C7sampleOut : OverrideOutcome :=
  { table := [(Key.str "J7", Json.obj
      [("junction_id", Json.str "J7"), ("name", Json.str "7th"),
       ("current_green", Json.str "west"), ("phase_remaining", Json.num 20),
       ("override", Json.obj [("operator", Json.str "manual"),
         ("reason", Json.str "Manual override"), ("time", Json.str "t1")])])],
    event := overrideEvent "J7" [("lane", Json.str "west")] "t2",
    broadcasts := [overrideEvent "J7" [("lane", Json.str "west")] "t2"],
    response := Json.obj
      [("status", Json.str "ok"),
       ("event", overrideEvent "J7" [("lane", Json.str "west")] "t2"),
       ("applied_state", Json.obj
         [("junction_id", Json.str "J7"), ("name", Json.str "7th"),
          ("current_green", Json.str "west"),
          ("phase_remaining", Json.num 20),
          ("override", Json.obj [("operator", Json.str "manual"),
            ("reason", Json.str "Manual override"),
            ("time", Json.str "t1")])])] }

theorem C7_override_frame_witness :
    (dictGet C7sampleOut.table (Key.str "J7")).bind
      (fun v => v.getField "name") = some (Json.str "7th") := by
  have h := C7_override_frame C7sampleTable "J7" [("lane", Json.str "west")]
    "t1" "t2" C7sampleOut rfl
  exact h.2.1
    (Json.obj [("junction_id", Json.str "J7"), ("name", Json.str "7th")])
    rfl "name" (by decide) (by decide) (by decide)

/-- C2 counterexample: an override request with no lane field on an empty
table is not rejected: the handler creates the record, performs one
broadcast and answers with status ok, contradicting the claim that it
rejects, leaves the table unchanged and does not broadcast. -/
theorem C2_counterexample :
    (override_junction [] "J1" [] "t1" "t2").map
      (fun o => ((dictGet o.table (Key.str "J1")).isSome,
        o.broadcasts.length, o.response.getField "status"))
    = Except.ok (true, 1, some (Json.str "ok")) := rfl

/-- C2 amended: an override request whose payload lacks the lane field is
not rejected: the handler proceeds with a None lane, answers ok
synchronously, broadcasts the override event, and stores a record whose
current_green is null. -/
theorem C2_missing_lane_proceeds (t : Table) (jid : String)
    (payload : List (String × Json)) (ts1 ts2 : String)
    (out : OverrideOutcome)
    (hlane : dictGet payload "lane" = none)
    (hok : override_junction t jid payload ts1 ts2 = .ok out) :
    out.response.getField "status" = some (Json.str "ok") ∧
    out.broadcasts = [overrideEvent jid payload ts2] ∧
    (dictGet out.table (Key.str jid)).bind
      (fun v => v.getField "current_green") = some Json.null := by
  obtain ⟨d, r1, r2, r3, hdur, h1, h2, h3, htab, hev, hbc, hresp⟩ :=
    override_junction_ok t jid payload ts1 ts2 out hok
  refine ⟨by rw [hresp]; rfl, hbc, ?_⟩
  have hself : dictGet out.table (Key.str jid) = some r3 := by
    rw [htab, dictGet_dictSet, if_pos rfl]
  rw [hself]
  show r3.getField "current_green" = some Json.null
  rw [getField_setFieldE _ _ _ _ _ h3, if_neg (by decide),
      getField_setFieldE _ _ _ _ _ h2, if_neg (by decide),
      getField_setFieldE _ _ _ _ _ h1, if_pos rfl, hlane]
  rfl

def C2sampleOut : OverrideOutcome :=
  { table := [(Key.str "J1", Json.obj
      [("junction_id", Json.str "J1"), ("current_green", Json.null),
       ("phase_remaining", Json.num 20),
       ("override", Json.obj [("operator", Json.str "manual"),
         ("reason", Json.str "Manual override"), ("time", Json.str "t1")])])],
    event := overrideEvent "J1" [] "t2",
    broadcasts := [overrideEvent "J1" [] "t2"],
    response := Json.obj
      [("status", Json.str "ok"), ("event", overrideEvent "J1" [] "t2"),
       ("applied_state", Json.obj
         [("junction_id", Json.str "J1"), ("current_green", Json.null),
          ("phase_remaining", Json.num 20),
          ("override", Json.obj [("operator", Json.str "manual"),
            ("reason", Json.str "Manual override"),
            ("time", Json.str "t1")])])] }

theorem C2_missing_lane_proceeds_witness :
    C2sampleOut.response.getField "status" = some (Json.str "ok") ∧
    C2sampleOut.broadcasts = [overrideEvent "J1" [] "t2"] ∧
    (dictGet C2sampleOut.table (Key.str "J1")).bind
      (fun v => v.getField "current_green") = some Json.null :=
  C2_missing_lane_proceeds [] "J1" [] "t1" "t2" C2sampleOut rfl rfl

/-- C6 counterexample: a negative duration is accepted and applied
verbatim, contradicting the claim that the applied duration is always a
non-negative integer. -/
theorem C6_counterexample :
    ((override_junction [] "J1"
        [("lane", Json.str "north"), ("duration", Json.num (-5))]
        "t1" "t2").map
      (fun o => (dictGet o.table (Key.str "J1")).bind
        (fun v => v.getField "phase_remaining"))
    = Except.ok (some (Json.num (-5)))) ∧ (-5 : Int) < 0 :=
  ⟨rfl, by decide⟩

/-- C6 amended: the applied duration is the int coercion of the duration
field with no sign check, so negative values pass through unchanged; it
defaults to 20 when the field is absent, and operator and reason default
to manual and Manual override when absent. -/
theorem C6_duration_defaults (t : Table) (jid : String)
    (payload : List (String × Json)) (ts1 ts2 : String)
    (out : OverrideOutcome) (d : Int)
    (hok : override_junction t jid payload ts1 ts2 = .ok out)
    (hd : pyInt ((dictGet payload "duration").getD (Json.num 20)) = .ok d) :
    (dictGet out.table (Key.str jid)).bind
      (fun v => v.getField "phase_remaining") = some (Json.num d) ∧
    (dictGet payload "duration" = none → d = 20) ∧
    (dictGet out.table (Key.str jid)).bind
      (fun v => v.getField "override")
      = some (overrideDescriptor payload ts1) ∧
    (dictGet payload "operator" = none →
      (overrideDescriptor payload ts1).getField "operator"
        = some (Json.str "manual")) ∧
    (dictGet payload "reason" = none →
      (overrideDescriptor payload ts1).getField "reason"
        = some (Json.str "Manual override")) := by
  obtain ⟨d0, r1, r2, r3, hdur, h1, h2, h3, htab, hev, hbc, hresp⟩ :=
    override_junction_ok t jid payload ts1 ts2 out hok
  have hd0 : d0 = d := by
    rw [hdur] at hd
    exact Except.ok.inj hd
  subst hd0
  have hself : dictGet out.table (Key.str jid) = some r3 := by
    rw [htab, dictGet_dictSet, if_pos rfl]
  refine ⟨?_, ?_, ?_, ?_, ?_⟩
  · rw [hself]
    show r3.getField "phase_remaining" = some (Json.num d0)
    rw [getField_setFieldE _ _ _ _ _ h3, if_neg (by decide),
        getField_setFieldE _ _ _ _ _ h2, if_pos rfl]
  · intro habs
    rw [habs] at hdur
    exact (Except.ok.inj hdur).symm
  · rw [hself]
    show r3.getField "override" = some (overrideDescriptor payload ts1)
    rw [getField_setFieldE _ _ _ _ _ h3, if_pos rfl]
  · intro habs
    simp [overrideDescriptor, Json.getField, dictGet, habs]
  · intro habs
    simp [overrideDescriptor, Json.getField, dictGet, habs]

def C6sampleOut : OverrideOutcome :=
  { table := [(Key.str "J1", Json.obj
      [("junction_id", Json.str "J1"), ("current_green", Json.str "n"),
       ("phase_remaining", Json.num 20),
       ("override", Json.obj [("operator", Json.str "manual"),
         ("reason", Json.str "Manual override"), ("time", Json.str "t1")])])],
    event := overrideEvent "J1" [("lane", Json.str "n")] "t2",
    broadcasts := [overrideEvent "J1" [("lane", Json.str "n")] "t2"],
    response := Json.obj
      [("status", Json.str "ok"),
       ("event", overrideEvent "J1" [("lane", Json.str "n")] "t2"),
       ("applied_state", Json.obj
         [("junction_id", Json.str "J1"), ("current_green", Json.str "n"),
          ("phase_remaining", Json.num 20),
          ("override", Json.obj [("operator", Json.str "manual"),
            ("reason", Json.str "Manual override"),
            ("time", Json.str "t1")])])] }

theorem C6_duration_defaults_witness :
    (dictGet C6sampleOut.table (Key.str "J1")).bind
      (fun v => v.getField "phase_remaining") = some (Json.num 20) ∧
    (dictGet [("lane", Json.str "n")] "duration" = none → (20 : Int) = 20) ∧
    (dictGet C6sampleOut.table (Key.str "J1")).bind
      (fun v => v.getField "override")
      = some (overrideDescriptor [("lane", Json.str "n")] "t1") ∧
    (dictGet [("lane", Json.str "n")] "operator" = none →
      (overrideDescriptor [("lane", Json.str "n")] "t1").getField "operator"
        = some (Json.str "manual")) ∧
    (dictGet [("lane", Json.str "n")] "reason" = none →
      (overrideDescriptor [("lane", Json.str "n")] "t1").getField "reason"
        = some (Json.str "Manual override")) :=
  C6_duration_defaults [] "J1" [("lane", Json.str "n")] "t1" "t2"
    C6sampleOut 20 rfl rfl

/-- C3 counterexample: a junction_update without junction_id kills the
producer session: the table stays untouched and nothing is broadcast, but
the session crashes and the next valid message on the same connection is
never processed, contradicting the claim that the session stays open and
keeps processing. -/
theorem C3_counterexample :
    runPublish []
      [Json.obj [("type", Json.str "junction_update")],
       Json.obj [("type", Json.str "junction_update"),
         ("junction_id", Json.str "A")]]
    = ([], [], true) := rfl

/-- C3 amended: a junction_update lacking junction_id does not mutate the
table and triggers no broadcast, but instead of being dropped it raises
an uncaught KeyError that terminates the session, so no later message on
the connection is processed. -/
theorem C3_missing_id_crashes (st : Table) (fs : List (String × Json))
    (rest : List Json)
    (ht : isUpdateType (Json.obj fs) = true)
    (hid : (Json.obj fs).getField "junction_id" = none) :
    handlePublishMsg st (Json.obj fs) = .error "KeyError" ∧
    runPublish st (Json.obj fs :: rest) = (st, [], true) := by
  have h : handlePublishMsg st (Json.obj fs) = .error "KeyError" := by
    simp [handlePublishMsg, ht, hid]
  exact ⟨h, by simp [runPublish, h]⟩

theorem C3_missing_id_crashes_witness :
    handlePublishMsg [] (Json.obj [("type", Json.str "junction_update")])
      = .error "KeyError" ∧
    runPublish [] (Json.obj [("type", Json.str "junction_update")] ::
      [Json.obj [("type", Json.str "junction_update"),
        ("junction_id", Json.str "A")]])
    = ([], [], true) :=
  C3_missing_id_crashes [] [("type", Json.str "junction_update")]
    [Json.obj [("type", Json.str "junction_update"),
      ("junction_id", Json.str "A")]] rfl rfl

theorem filter_isSend_replicate (n : Nat) :
    (List.replicate n DashEvent.recv).filter DashEvent.isSend = [] := by
  induction n with
  | zero => rfl
  | succ m ih => simp [List.replicate_succ, DashEvent.isSend, ih]

/-- C8: a dashboard session first registers with the broadcast registry
and then sends exactly one snapshot message, whose junctions list is
exactly the snapshotAll view of the table at that moment; the handler
performs no other send afterwards, so no second snapshot is ever sent to
the same session. -/
theorem C8_snapshot_once (clients : List Nat) (t : Table) (ws : Nat)
    (n : Nat) :
    ws ∈ (ws_dashboard_trace clients t ws n).1 ∧
    (ws_dashboard_trace clients t ws n).2.filter DashEvent.isSend
      = [DashEvent.send (snapshotMsg t)] ∧
    snapshotMsg t = Json.obj [("type", Json.str "snapshot"),
      ("junctions", Json.arr (snapshotAll t))] ∧
    (ws_dashboard_trace clients t ws n).2.head?
      = some (DashEvent.register ws) := by
  refine ⟨?_, ?_, rfl, rfl⟩
  · unfold ws_dashboard_trace setAdd
    split
    · next h => exact h
    · simp
  · unfold ws_dashboard_trace
    simp [DashEvent.isSend, filter_isSend_replicate]

/-- C9 counterexample: leave is not idempotent: once a broadcast has
removed a failed session from the registry, the disconnect path calling
set.remove on it raises KeyError instead of succeeding silently. -/
theorem C9_counterexample :
    setRemove (broadcastRun [5] (fun _ => true)).registry 5
      = Except.error "KeyError" := rfl

/-- C9 amended: removing a currently registered session succeeds and a
session failing inside one broadcast is removed exactly once there, but
removal is not idempotent: set.remove on an already removed session
raises KeyError rather than succeeding without error. -/
theorem C9_remove_not_idempotent (clients : List Nat) (c : Nat) :
    (c ∈ clients → setRemove clients c = .ok (clients.erase c)) ∧
    (c ∉ clients → setRemove clients c = .error "KeyError") := by
  constructor
  · intro h
    simp [setRemove, h]
  · intro h
    simp [setRemove, h]

theorem C9_remove_not_idempotent_witness :
    setRemove [5] 5 = .ok ([5].erase 5) ∧
    setRemove [] 5 = Except.error "KeyError" :=
  ⟨(C9_remove_not_idempotent [5] 5).1 (by decide),
   (C9_remove_not_idempotent [] 5).2 (by decide)⟩

/-- One client interaction applied to the table: a producer message or an
override request. A step whose handler raises leaves the table unchanged,
matching the code, where both failure paths raise before any mutation. -/
inductive HubStep where
  | producer : Json → HubStep
  | override : String → List (String × Json) → String → String → HubStep

def applyStep (t : Table) : HubStep → Table
  | .producer msg =>
    match handlePublishMsg t msg with
    | .ok p => p.1
    | .error _ => t
  | .override jid payload ts1 ts2 =>
    match override_junction t jid payload ts1 ts2 with
    | .ok out => out.table
    | .error _ => t

/-- The C10 invariant: every stored record is a JSON object whose
junction_id field equals the key it is stored under. -/
def wfTable (t : Table) : Prop :=
  ∀ k r, dictGet t k = some r → r.getField "junction_id" = some k.toJson

theorem toJson_asKey (jv : Json) (k : Key) (h : jv.asKey = some k) :
    k.toJson = jv := by
  cases jv <;> simp [Json.asKey] at h <;> subst h <;> rfl

theorem handlePublishMsg_cases (st : Table) (m : Json) (t2 : Table)
    (b : Option Json) (h : handlePublishMsg st m = .ok (t2, b)) :
    (t2 = st ∧ b = none) ∨
    ∃ jv k, m.getField "junction_id" = some jv ∧ jv.asKey = some k ∧
      t2 = dictSet st k m ∧ b = some m := by
  unfold handlePublishMsg at h
  split at h
  · split at h
    · split at h
      · simp at h
      next jv hjv =>
        split at h
        · simp at h
        next k hk =>
          obtain ⟨h1, h2⟩ := Prod.mk.inj (Except.ok.inj h)
          exact Or.inr ⟨jv, k, hjv, hk, h1.symm, h2.symm⟩
    · obtain ⟨h1, h2⟩ := Prod.mk.inj (Except.ok.inj h)
      exact Or.inl ⟨h1.symm, h2.symm⟩
  · simp at h

theorem wfTable_producer (t : Table) (m : Json) (t2 : Table)
    (b : Option Json) (hwf : wfTable t)
    (h : handlePublishMsg t m = .ok (t2, b)) : wfTable t2 := by
  rcases handlePublishMsg_cases t m t2 b h with ⟨rfl, _⟩ | ⟨jv, k, hjv, hk, rfl, _⟩
  · exact hwf
  · intro k' r hr
    rw [dictGet_dictSet] at hr
    by_cases hkk : k' = k
    · subst hkk
      rw [if_pos rfl] at hr
      obtain rfl := Option.some.inj hr
      rw [hjv, toJson_asKey jv k' hk]
    · rw [if_neg hkk] at hr
      exact hwf k' r hr

theorem wfTable_ensureTable (t : Table) (jid : String) (hwf : wfTable t) :
    wfTable (ensureTable t jid) := by
  intro k r hr
  unfold ensureTable at hr
  split at hr
  · exact hwf k r hr
  · rw [dictGet_dictSet] at hr
    by_cases hk : k = Key.str jid
    · subst hk
      rw [if_pos rfl] at hr
      obtain rfl := Option.some.inj hr
      rfl
    · rw [if_neg hk] at hr
      exact hwf k r hr

theorem wfTable_override (t : Table) (jid : String)
    (payload : List (String × Json)) (ts1 ts2 : String)
    (out : OverrideOutcome) (hwf : wfTable t)
    (hok : override_junction t jid payload ts1 ts2 = .ok out) :
    wfTable out.table := by
  obtain ⟨d, r1, r2, r3, hdur, h1, h2, h3, htab, _, _, _⟩ :=
    override_junction_ok t jid payload ts1 ts2 out hok
  have hwf0 := wfTable_ensureTable t jid hwf
  have hkey : dictGet (ensureTable t jid) (Key.str jid)
      = some ((dictGet (ensureTable t jid) (Key.str jid)).getD Json.null) := by
    rw [dictGet_ensureTable_self]
    rfl
  have hr0 : ((dictGet (ensureTable t jid) (Key.str jid)).getD
      Json.null).getField "junction_id" = some (Json.str jid) :=
    hwf0 (Key.str jid) _ hkey
  have hr3 : r3.getField "junction_id" = some (Json.str jid) := by
    rw [getField_setFieldE _ _ _ _ _ h3, if_neg (by decide),
        getField_setFieldE _ _ _ _ _ h2, if_neg (by decide),
        getField_setFieldE _ _ _ _ _ h1, if_neg (by decide)]
    exact hr0
  rw [htab]
  intro k r hr
  rw [dictGet_dictSet] at hr
  by_cases hk : k = Key.str jid
  · subst hk
    rw [if_pos rfl] at hr
    obtain rfl := Option.some.inj hr
    exact hr3
  · rw [if_neg hk] at hr
    exact hwf0 k r hr

theorem wfTable_applyStep (t : Table) (s : HubStep) (hwf : wfTable t) :
    wfTable (applyStep t s) := by
  cases s with
  | producer m =>
    simp only [applyStep]
    cases h : handlePublishMsg t m with
    | ok p =>
      obtain ⟨t2, b⟩ := p
      exact wfTable_producer t m t2 b hwf h
    | error e => exact hwf
  | override jid payload ts1 ts2 =>
    simp only [applyStep]
    cases h : override_junction t jid payload ts1 ts2 with
    | ok out => exact wfTable_override t jid payload ts1 ts2 out hwf h
    | error e => exact hwf

/-- C10: starting from the empty table, any sequence of producer
junction_update applications and override applications yields a table in
which every stored record carries a junction_id field equal to the key it
is stored under; both paths preserve the invariant. -/
theorem C10_id_key_invariant (steps : List HubStep) :
    wfTable (List.foldl applyStep ([] : Table) steps) := by
  have hgen : ∀ t, wfTable t → wfTable (List.foldl applyStep t steps) := by
    induction steps with
    | nil => exact fun t ht => ht
    | cons s ss ih => exact fun t ht => ih _ (wfTable_applyStep t s ht)
  exact hgen [] (fun k r hr => by simp [dictGet] at hr)

end SwarmSignal
